import Mathlib

/-!
Verification of the journal impact-factor resolver of the Medical-Literature-Finder
repository (`app/impact_factors.py`).

The resolver is a pure function over static tables.  We embed it shallowly:

* Python `str` becomes Lean `String` (a list of characters, matching Python's
  view of a string as a sequence of code points).  The repository's tables and
  the behaviour under scrutiny are ASCII; `.lower()` and `.strip()` are modelled
  on the ASCII range.
* Python `float` literals and arithmetic become exact rationals (`ℚ`).  Every
  numeric literal in the source is an exact decimal, and every comparison the
  claims depend on is far from any binary-float rounding boundary, so the
  rational model reproduces the observable float behaviour.
* Python dicts (fixed literals, insertion-ordered, with unique keys) become
  association lists in source order.
* The one fallible operation (the `/` in the fuzzy-match ratio, which would
  raise `ZeroDivisionError` on a zero divisor) is modelled with an `Option`;
  `get_impact_factor` therefore returns `Option ℚ`, where `none` models an
  uncaught exception.
-/

set_option maxRecDepth 10000

namespace ImpactFactors

/-- Python's default `str.strip` whitespace set (ASCII part). -/
def isPyWhitespace (c : Char) : Bool :=
  c == ' ' || c == '\t' || c == '\n' || c == '\r' || c == '\x0b' || c == '\x0c'

/-- Model of Python `str.strip()` (ASCII whitespace). -/
def stripStr (s : String) : String :=
  ⟨((s.data.dropWhile isPyWhitespace).reverse.dropWhile isPyWhitespace).reverse⟩

/-- ASCII lower-casing of one character, as Python `str.lower` acts on ASCII. -/
def lowerChar (c : Char) : Char :=
  if 'A' ≤ c ∧ c ≤ 'Z' then Char.ofNat (c.toNat + 32) else c

/-- Model of Python `str.lower()` (ASCII). -/
def lowerStr (s : String) : String :=
  ⟨s.data.map lowerChar⟩

/-- Containment of `pat` at some position of the haystack list. -/
def listInfix (pat : List Char) : List Char → Bool
  | [] => pat.isEmpty
  | c :: cs => pat.isPrefixOf (c :: cs) || listInfix pat cs

/-- Model of Python's `needle in hay` substring test. -/
def substrB (needle hay : String) : Bool :=
  listInfix needle.data hay.data

/-- Auxiliary scan for `countStr`: counts non-overlapping occurrences of the
nonempty pattern `p :: ps`, scanning left to right and skipping the whole
pattern after each hit, exactly as CPython's `str.count` does. -/
def countAux (p : Char) (ps : List Char) : List Char → Nat
  | [] => 0
  | c :: cs =>
    if (p :: ps).isPrefixOf (c :: cs) then 1 + countAux p ps (cs.drop ps.length)
    else countAux p ps cs
termination_by l => l.length
decreasing_by
  all_goals simp_wf
  all_goals omega

/-- Model of Python `s.count(pat)`: number of non-overlapping occurrences of
`pat` in `s` (for the empty pattern CPython returns `len(s) + 1`). -/
def countStr (s pat : String) : Nat :=
  match pat.data with
  | [] => s.data.length + 1
  | p :: ps => countAux p ps s.data

/-- Division that fails on a zero divisor, modelling Python's `/` which raises
`ZeroDivisionError` there. -/
def safeDiv (a b : ℚ) : Option ℚ :=
  if b = 0 then none else some (a / b)

/-- First-match lookup in an association list; models reading a Python dict
literal whose keys are unique (`d.get(k)` / `d[k]` / `k in d`). -/
def assoc {α : Type} (k : String) : List (String × α) → Option α
  | [] => none
  | (k2, v) :: rest => if k2 = k then some v else assoc k rest

/-- One token of the anchored regular expressions in `GENERIC_PATTERNS`:
either a literal piece or `\w+` (one or more word characters). -/
inductive RTok : Type
  | lit : String → RTok
  | word : RTok
deriving DecidableEq

/-- Python's `\w` (ASCII range): letters, digits, underscore. -/
def isWordChar (c : Char) : Bool :=
  c.isAlphanum || c == '_'

/-- Full-sequence matcher for one alternative of an anchored pattern.
`RTok.word` is `\w+`: consume one word character, then either stop or keep
consuming (full backtracking, hence exactly the regex semantics).  Because the
matched text has been `strip`ped, it cannot end in a newline, so `re.search`
with `^...$` coincides with this full match. -/
def matchSeq : List RTok → List Char → Bool
  | [], cs => cs.isEmpty
  | .lit l :: rest, cs => l.data.isPrefixOf cs && matchSeq rest (cs.drop l.data.length)
  | .word :: _, [] => false
  | .word :: rest, c :: cs =>
    isWordChar c && (matchSeq rest cs || matchSeq (.word :: rest) cs)
termination_by toks cs => 2 * cs.length + toks.length
decreasing_by
  all_goals simp_wf
  all_goals omega

/-- A pattern is an alternation of token sequences; it matches a string when
some alternative matches the whole string. -/
def matchesPat (alts : List (List RTok)) (s : String) : Bool :=
  alts.any (fun seq => matchSeq seq s.data)

/-- The `"Allergy"` table of `JOURNAL_IMPACT_FACTORS`, in source order. -/
def allergyTable : List (String × ℚ) := [
  ("Allergy", 12.6),
  ("Journal of Allergy and Clinical Immunology", 11.4),
  ("Clinical Reviews in Allergy & Immunology", 8.4),
  ("Journal of Allergy and Clinical Immunology-In Practice", 8.2),
  ("Clinical and Experimental Allergy", 6.3),
  ("Allergology International", 6.2),
  ("Journal of Investigational Allergology and Clinical Immunology", 6.1),
  ("Annals of Allergy Asthma & Immunology", 5.8),
  ("Current Allergy and Asthma Reports", 5.4),
  ("Contact Dermatitis", 4.8),
  ("Clinical and Translational Allergy", 4.6),
  ("Pediatric Allergy and Immunology", 4.3),
  ("Allergy Asthma & Immunology Research", 4.1),
  ("World Allergy Organization Journal", 3.9),
  ("Journal of Asthma and Allergy", 3.7),
  ("Current Opinion in Allergy and Clinical Immunology", 3.0),
  ("Immunology and Allergy Clinics of North America", 2.7),
  ("Allergy Asthma and Clinical Immunology", 2.6),
  ("Allergy and Asthma Proceedings", 2.6),
  ("Allergologia et Immunopathologia", 2.5),
  ("International Archives of Allergy and Immunology", 2.5),
  ("Asian Pacific Journal of Allergy and Immunology", 2.3),
  ("Journal of Asthma", 1.7),
  ("Allergologie", 1.4),
  ("Postepy Dermatologii i Alergologii", 1.4),
  ("Iranian Journal of Allergy Asthma and Immunology", 1.2),
  ("Pediatric Allergy Immunology and Pulmonology", 1.1),
  ("Revue Francaise d\x27Allergologie", 0.5)]

/-- The `"Ophthalmology"` table of `JOURNAL_IMPACT_FACTORS`, in source order. -/
def ophthalmologyTable : List (String × ℚ) := [
  ("Progress in Retinal and Eye Research", 14.7),
  ("Ophthalmology", 9.2),
  ("JAMA Ophthalmology", 7.9),
  ("Ocular Surface", 7.5),
  ("Survey of Ophthalmology", 5.9),
  ("Annual Review of Vision Science", 5.5),
  ("Clinical and Experimental Ophthalmology", 3.8),
  ("American Journal of Ophthalmology", 5.6),
  ("Contact Lens & Anterior Eye", 3.2),
  ("British Journal of Ophthalmology", 4.6),
  ("Asia-Pacific Journal of Ophthalmology", 2.8),
  ("Canadian Journal of Ophthalmology-Journal Canadien d\x27Ophtalmologie", 2.5),
  ("Acta Ophthalmologica", 3.5),
  ("Experimental Eye Research", 3.5),
  ("Current Opinion in Ophthalmology", 3.1),
  ("Journal of Refractive Surgery", 2.9),
  ("Eye", 2.8),
  ("Ophthalmic and Physiological Optics", 2.7),
  ("Translational Vision Science & Technology", 2.5),
  ("Ophthalmology and Therapy", 2.4),
  ("Journal of Cataract and Refractive Surgery", 4.1),
  ("Documenta Ophthalmologica", 2.0),
  ("Ocular Immunology and Inflammation", 2.2),
  ("Graefes Archive for Clinical and Experimental Ophthalmology", 3.3),
  ("Retina-The Journal of Retinal and Vitreous Diseases", 4.3),
  ("Indian Journal of Ophthalmology", 1.8),
  ("Ophthalmologica", 2.2),
  ("Japanese Journal of Ophthalmology", 1.9),
  ("Eye & Contact Lens-Science and Clinical Practice", 2.3),
  ("Journal of Vision", 2.1),
  ("Ophthalmic Research", 2.0),
  ("Journal of Glaucoma", 2.4),
  ("Journal of Neuro-Ophthalmology", 2.2),
  ("Cornea", 2.6),
  ("International Journal of Ophthalmology", 1.6),
  ("Journal of Ocular Pharmacology and Therapeutics", 1.9),
  ("Seminars in Ophthalmology", 1.5),
  ("Journal of Ophthalmology", 1.7),
  ("BMC Ophthalmology", 1.8),
  ("Ophthalmic Epidemiology", 1.9),
  ("Current Eye Research", 2.0)]

/-- The `"Dermatology"` table of `JOURNAL_IMPACT_FACTORS`, in source order. -/
def dermatologyTable : List (String × ℚ) := [
  ("Journal of Dermatological Science", 3.8),
  ("Dermatologic Therapy", 3.7),
  ("Clinical and Experimental Dermatology", 3.7),
  ("Experimental Dermatology", 3.5),
  ("Acta Dermato-Venereologica", 3.5),
  ("Dermatology and Therapy", 3.5),
  ("International Journal of Dermatology", 3.5),
  ("Burns", 3.2),
  ("Indian Journal of Dermatology Venereology & Leprology", 3.2),
  ("Journal of Cutaneous Medicine and Surgery", 3.1),
  ("Annales de Dermatologie et de Venereologie", 3.1),
  ("Dermatology", 3.0),
  ("Journal of Dermatology", 2.9),
  ("Journal of Dermatological Treatment", 2.9),
  ("Skin Pharmacology and Physiology", 2.8),
  ("International Journal of Cosmetic Science", 2.7),
  ("International Wound Journal", 2.6),
  ("Anais Brasileiros de Dermatologia", 2.6),
  ("Dermatologic Surgery", 2.5),
  ("Dermatology Practical & Conceptual", 2.5),
  ("Photodermatology Photoimmunology & Photomedicine", 2.5),
  ("Journal of Tissue Viability", 2.4),
  ("Journal of Cosmetic Dermatology", 2.3),
  ("Clinics in Dermatology", 2.3),
  ("Dermatologica Sinica", 2.3),
  ("Lasers in Surgery and Medicine", 2.2),
  ("Australasian Journal of Dermatology", 2.2),
  ("Dermatologica Clinica", 2.2),
  ("European Journal of Dermatology", 2.0),
  ("Skin Research and Technology", 2.0),
  ("Veterinary Dermatology", 1.9),
  ("Clinical Cosmetic and Investigational Dermatology", 1.9),
  ("Archives of Dermatological Research", 1.8),
  ("Advances in Skin & Wound Care", 1.7),
  ("Journal of Cutaneous Pathology", 1.6),
  ("International Journal of Lower Extremity Wounds", 1.5),
  ("Annals of Dermatology", 1.5),
  ("Melanoma Research", 1.5),
  ("Journal of Wound Care", 1.5),
  ("Journal of Burn Care & Research", 1.5),
  ("Postepy Dermatologii (Alergologii)", 1.4),
  ("Journal of Cosmetic and Laser Therapy", 1.2),
  ("Journal of Investigative Dermatology", 8.6),
  ("JAMA Dermatology", 9.3),
  ("British Journal of Dermatology", 9.0)]

/-- `JOURNAL_IMPACT_FACTORS`: specialty → (journal name → impact factor). -/
def JOURNAL_IMPACT_FACTORS : List (String × List (String × ℚ)) := [
  ("Allergy", allergyTable),
  ("Ophthalmology", ophthalmologyTable),
  ("Dermatology", dermatologyTable)]

/-- `HIGH_IMPACT_JOURNALS`: known high-impact journals regardless of field,
in source order. -/
def HIGH_IMPACT_JOURNALS : List (String × ℚ) := [
  ("Science", 47.7),
  ("Nature", 49.9),
  ("Cell", 38.6),
  ("PNAS", 11.2),
  ("PLoS Medicine", 10.5),
  ("JAMA Internal Medicine", 18.7),
  ("BMJ", 39.9),
  ("NEJM", 91.2),
  ("Nature Medicine", 53.4),
  ("Lancet", 79.3)]

/-- `GENERIC_PATTERNS`: each anchored regular expression of the source,
transliterated token-by-token (alternation of sequences of literals and
word runs), paired with its estimated impact factor, in source order. -/
def GENERIC_PATTERNS : List (List (List RTok) × ℚ) := [
  ([[.lit "new england journal of medicine"], [.lit "nejm"]], 91.2),
  ([[.lit "lancet"], [.lit "the lancet"]], 79.3),
  ([[.lit "journal of the american medical association"], [.lit "jama"]], 56.3),
  ([[.lit "nature medicine"]], 53.4),
  ([[.lit "bmj"], [.lit "british medical journal"]], 39.9),
  ([[.lit "nature reviews ", .word]], 30.0),
  ([[.lit "annual review of ", .word]], 20.0),
  ([[.lit "cell ", .word]], 15.0),
  ([[.lit "advances in ", .word]], 10.0),
  ([[.lit "journal of ", .word, .lit " and ", .word]], 8.5),
  ([[.lit "international journal of ", .word]], 7.0),
  ([[.lit "journal of ", .word]], 6.0),
  ([[.lit "european journal of ", .word]], 5.5),
  ([[.lit "american journal of ", .word]], 5.0),
  ([[.lit "british journal of ", .word]], 4.5),
  ([[.lit "current ", .word]], 4.0),
  ([[.word, .lit " journal"]], 3.5),
  ([[.word, .lit " research"]], 3.0),
  ([[.word, .lit " reviews"]], 2.5),
  ([[.word, .lit " practice"]], 2.0),
  ([[.word, .lit " proceedings"]], 1.5),
  ([[.word, .lit " communications"]], 1.0)]

/-- Prestige indicators of `estimate_impact_from_name`, in source order. -/
def prestigious_indicators : List String := [
  "nature", "cell", "lancet", "jama", "nejm", "bmj", "science",
  "elsevier", "wiley", "oxford", "cambridge", "american", "european",
  "international", "world", "royal", "society"]

/-- Higher-impact publication-type markers of `estimate_impact_from_name`,
in source order. -/
def higher_impact_types : List String := [
  "review", "advances", "trends", "progress", "annual", "current"]

/-- Step 1 of the resolver: scan `HIGH_IMPACT_JOURNALS` in order and return the
first factor whose (lower-cased) name equals, or is a substring of, the cleaned
lower-cased journal name. -/
def overrideFirst (jl : String) : List (String × ℚ) → Option ℚ
  | [] => none
  | (k, v) :: rest =>
    if lowerStr k = jl ∨ substrB (lowerStr k) jl = true then some v
    else overrideFirst jl rest

/-- Case-insensitive scan of a specialty table, in order. -/
def ciFirst (jl : String) : List (String × ℚ) → Option ℚ
  | [] => none
  | (k, v) :: rest => if lowerStr k = jl then some v else ciFirst jl rest

/-- Fuzzy partial-match scan of a specialty table, in order.  The outer
`Option` models exception-freedom (`none` would be a `ZeroDivisionError`
propagating out of the ratio computation); the inner `Option` is the step's
outcome (`none`: fall through to the generic patterns).  As in the source,
the ratio is only computed after the `shorter > 5` test short-circuits. -/
def fuzzyFirst (jl : String) : List (String × ℚ) → Option (Option ℚ)
  | [] => some none
  | (k, v) :: rest =>
    if substrB jl (lowerStr k) = true ∨ substrB (lowerStr k) jl = true then
      if 5 < min jl.data.length (lowerStr k).data.length then
        match safeDiv ((max (countStr jl (lowerStr k)) (countStr (lowerStr k) jl) : ℕ) : ℚ)
            ((min jl.data.length (lowerStr k).data.length : ℕ) : ℚ) with
        | none => none
        | some ratio =>
          if (0.7 : ℚ) < ratio then some (some v) else fuzzyFirst jl rest
      else fuzzyFirst jl rest
    else fuzzyFirst jl rest

/-- First generic pattern (in table order) matching the lower-cased journal
name, with its factor. -/
def patternFirst (jl : String) : List (List (List RTok) × ℚ) → Option ℚ
  | [] => none
  | (p, f) :: rest => if matchesPat p jl = true then some f else patternFirst jl rest

/-- Pre-clamp heuristic score of `estimate_impact_from_name`: base 1.0,
times 1.5 when some prestige indicator occurs in the name (the loop breaks
after the first hit, so at most once), times 1.3 when some higher-impact type
occurs (likewise at most once), times 1.2 when the specialty occurs. -/
def estimate_base (journal_name specialty : String) : ℚ :=
  let b1 : ℚ := 1.0
  let b2 := if prestigious_indicators.any (fun i => substrB i journal_name) then b1 * 1.5 else b1
  let b3 := if higher_impact_types.any (fun t => substrB t journal_name) then b2 * 1.3 else b2
  if substrB specialty journal_name = true then b3 * 1.2 else b3

/-- Rounding to one decimal place.  CPython's `round(x, 1)` rounds the binary
float `x` half-to-even; on every value `estimate_impact_from_name` can feed it
(products of subsets of {1.5, 1.3, 1.2}, or 15.0) this half-up rule on exact
rationals returns precisely what CPython returns (the only near-tie, 1.5·1.3,
is the float 1.9500000000000002 > 1.95, which CPython rounds up to 2.0 just as
this rule rounds the exact 1.95 up). -/
def round1 (q : ℚ) : ℚ :=
  ((Int.floor (10 * q + 1 / 2) : ℤ) : ℚ) / 10

/-- `estimate_impact_from_name(journal_name, specialty)`: heuristic estimate
from name characteristics — the multiplier cascade, a clamp at 15.0, then
rounding to one decimal. -/
def estimate_impact_from_name (journal_name specialty : String) : ℚ :=
  round1 (if 15.0 < estimate_base journal_name specialty then 15.0
          else estimate_base journal_name specialty)

/-- `get_impact_factor(specialty, journal_name, default)`: the full resolver.
`none` models an uncaught exception (which, as proved below, never happens).
The steps mirror the source: falsy (empty) name returns the default; then the
high-impact override scan on the stripped lower-cased name; then exact,
case-insensitive and fuzzy lookups in the specialty's table (empty when the
specialty is unknown); then the generic-pattern fallback with its 1.2 bonus
when the lower-cased specialty occurs in the name; then the name heuristic if
positive; otherwise the default. -/
def get_impact_factor (specialty journal_name : String) (default : ℚ) : Option ℚ :=
  if journal_name = "" then some default
  else
    match overrideFirst (lowerStr (stripStr journal_name)) HIGH_IMPACT_JOURNALS with
    | some v => some v
    | none =>
      match assoc (stripStr journal_name) ((assoc specialty JOURNAL_IMPACT_FACTORS).getD []) with
      | some v => some v
      | none =>
        match ciFirst (lowerStr (stripStr journal_name)) ((assoc specialty JOURNAL_IMPACT_FACTORS).getD []) with
        | some v => some v
        | none =>
          match fuzzyFirst (lowerStr (stripStr journal_name)) ((assoc specialty JOURNAL_IMPACT_FACTORS).getD []) with
          | none => none
          | some (some v) => some v
          | some none =>
            match patternFirst (lowerStr (stripStr journal_name)) GENERIC_PATTERNS with
            | some f =>
              some (if substrB (lowerStr specialty) (lowerStr (stripStr journal_name)) = true
                    then f * 1.2 else f)
            | none =>
              if 0 < estimate_impact_from_name (lowerStr (stripStr journal_name)) (lowerStr specialty) then
                some (estimate_impact_from_name (lowerStr (stripStr journal_name)) (lowerStr specialty))
              else some default

/-- The journal name "ophthalmology" repeated ten times: an input on which the
fuzzy partial-match step does return a value (the key "Ophthalmology" occurs
10 times in it and 10 / 13 > 0.7). -/
def bigName : String :=
  "ophthalmologyophthalmologyophthalmologyophthalmologyophthalmologyophthalmologyophthalmologyophthalmologyophthalmologyophthalmology"

theorem assoc_mem {α : Type} {k : String} {v : α} :
    ∀ {l : List (String × α)}, assoc k l = some v → (k, v) ∈ l := by
  intro l
  induction l with
  | nil => intro h; simp [assoc] at h
  | cons kv rest ih =>
    obtain ⟨k2, v2⟩ := kv
    intro h
    by_cases hk : k2 = k
    · rw [assoc, if_pos hk] at h
      injection h with hv
      subst hk hv
      exact List.mem_cons_self _ _
    · rw [assoc, if_neg hk] at h
      exact List.mem_cons_of_mem _ (ih h)

theorem assoc_of_mem_nodup {α : Type} {k : String} {v : α} :
    ∀ {l : List (String × α)}, (k, v) ∈ l → (l.map Prod.fst).Nodup →
      assoc k l = some v := by
  intro l
  induction l with
  | nil => intro h; simp at h
  | cons kv rest ih =>
    obtain ⟨k2, v2⟩ := kv
    intro hmem hnd
    rcases List.mem_cons.mp hmem with heq | htail
    · injection heq with h1 h2
      subst h1 h2
      rw [assoc, if_pos rfl]
    · rw [List.map_cons] at hnd
      have h1 : k2 ∉ rest.map Prod.fst := (List.nodup_cons.mp hnd).1
      have h2 : (rest.map Prod.fst).Nodup := (List.nodup_cons.mp hnd).2
      have hk : k2 ≠ k := by
        intro hkk
        exact h1 (List.mem_map.mpr ⟨(k, v), htail, hkk.symm⟩)
      rw [assoc, if_neg hk]
      exact ih htail h2

theorem overrideFirst_mem {jl : String} {v : ℚ} :
    ∀ {l : List (String × ℚ)}, overrideFirst jl l = some v → ∃ k, (k, v) ∈ l := by
  intro l
  induction l with
  | nil => intro h; simp [overrideFirst] at h
  | cons kv rest ih =>
    obtain ⟨k2, v2⟩ := kv
    intro h
    rw [overrideFirst] at h
    split at h
    · injection h with hv
      exact ⟨k2, by simp [hv]⟩
    · obtain ⟨k, hk⟩ := ih h
      exact ⟨k, List.mem_cons_of_mem _ hk⟩

theorem ciFirst_mem {jl : String} {v : ℚ} :
    ∀ {l : List (String × ℚ)}, ciFirst jl l = some v → ∃ k, (k, v) ∈ l := by
  intro l
  induction l with
  | nil => intro h; simp [ciFirst] at h
  | cons kv rest ih =>
    obtain ⟨k2, v2⟩ := kv
    intro h
    rw [ciFirst] at h
    split at h
    · injection h with hv
      exact ⟨k2, by simp [hv]⟩
    · obtain ⟨k, hk⟩ := ih h
      exact ⟨k, List.mem_cons_of_mem _ hk⟩

theorem patternFirst_mem {jl : String} {f : ℚ} :
    ∀ {l : List (List (List RTok) × ℚ)}, patternFirst jl l = some f →
      ∃ p, (p, f) ∈ l := by
  intro l
  induction l with
  | nil => intro h; simp [patternFirst] at h
  | cons pf rest ih =>
    obtain ⟨p2, f2⟩ := pf
    intro h
    rw [patternFirst] at h
    split at h
    · injection h with hf
      exact ⟨p2, by simp [hf]⟩
    · obtain ⟨p, hp⟩ := ih h
      exact ⟨p, List.mem_cons_of_mem _ hp⟩

theorem fuzzyFirst_mem {jl : String} {v : ℚ} :
    ∀ {l : List (String × ℚ)}, fuzzyFirst jl l = some (some v) →
      ∃ k, (k, v) ∈ l := by
  intro l
  induction l with
  | nil => intro h; simp [fuzzyFirst] at h
  | cons kv rest ih =>
    obtain ⟨k2, v2⟩ := kv
    intro h
    rw [fuzzyFirst] at h
    split at h
    · split at h
      · split at h
        · exact absurd h (by simp)
        · split at h
          · injection h with hv
            injection hv with hv2
            exact ⟨k2, by simp [hv2]⟩
          · obtain ⟨k, hk⟩ := ih h
            exact ⟨k, List.mem_cons_of_mem _ hk⟩
      · obtain ⟨k, hk⟩ := ih h
        exact ⟨k, List.mem_cons_of_mem _ hk⟩
    · obtain ⟨k, hk⟩ := ih h
      exact ⟨k, List.mem_cons_of_mem _ hk⟩

theorem fuzzyFirst_ne_none (jl : String) :
    ∀ (l : List (String × ℚ)), fuzzyFirst jl l ≠ none := by
  intro l
  induction l with
  | nil => simp [fuzzyFirst]
  | cons kv rest ih =>
    obtain ⟨k2, v2⟩ := kv
    rw [fuzzyFirst]
    split
    · split
      · rename_i hcond h5
        have hden : ((min jl.data.length (lowerStr k2).data.length : ℕ) : ℚ) ≠ 0 :=
          Nat.cast_ne_zero.mpr (by omega)
        rw [safeDiv, if_neg hden]
        split
        · rename_i heq
          simp at heq
        · split
          · simp
          · exact ih
      · exact ih
    · exact ih

theorem high_impact_values_pos : ∀ e ∈ HIGH_IMPACT_JOURNALS, 0 < e.2 := by
  with_unfolding_all decide

theorem table_values_pos : ∀ p ∈ JOURNAL_IMPACT_FACTORS, ∀ e ∈ p.2, 0 < e.2 := by
  with_unfolding_all decide

theorem pattern_values_pos : ∀ e ∈ GENERIC_PATTERNS, 0 < e.2 := by
  with_unfolding_all decide

theorem table_keys_clean :
    ∀ p ∈ JOURNAL_IMPACT_FACTORS, ∀ e ∈ p.2, e.1 ≠ "" ∧ stripStr e.1 = e.1 := by
  decide

theorem table_keys_nodup : ∀ p ∈ JOURNAL_IMPACT_FACTORS, (p.2.map Prod.fst).Nodup := by
  decide

theorem specialties_nodup : (JOURNAL_IMPACT_FACTORS.map Prod.fst).Nodup := by
  decide

/-- C2 (amended part): only the genuinely empty journal name is falsy in
Python, so only it short-circuits to the caller-supplied default. -/
theorem empty_name_returns_default : ∀ (s : String) (d : ℚ),
    get_impact_factor s "" d = some d := by
  intro s d
  rfl

/-- C2 (counterexample): a whitespace-only journal name is truthy, so it does
not return the default; it falls all the way to the name heuristic, which
yields 1.0 — not the caller's default 5. -/
theorem whitespace_name_skips_default :
    get_impact_factor "Ophthalmology" " " 5 = some 1 ∧ (1 : ℚ) ≠ 5 := by
  with_unfolding_all decide

/-- C8: `get_impact_factor("Ophthalmology", "Ophthalmology")` is 9.2 via the
exact table hit (the key is in the table, the override scan misses), and
`get_impact_factor("Ophthalmology", "ophthalmology")` is 9.2 via the
case-insensitive path (the exact lookup misses, the case-insensitive scan
hits). -/
theorem ophthalmology_exact_and_ci_hits :
    get_impact_factor "Ophthalmology" "Ophthalmology" 1 = some 9.2 ∧
    assoc "Ophthalmology" ophthalmologyTable = some 9.2 ∧
    overrideFirst "ophthalmology" HIGH_IMPACT_JOURNALS = none ∧
    get_impact_factor "Ophthalmology" "ophthalmology" 1 = some 9.2 ∧
    assoc "ophthalmology" ophthalmologyTable = none ∧
    ciFirst "ophthalmology" ophthalmologyTable = some 9.2 := by
  with_unfolding_all decide

/-- C3 (amended): the override scan returns the factor of the first entry, in
table order, whose lower-cased name equals or occurs inside the cleaned
lower-cased journal name; whenever that scan hits, `get_impact_factor`
returns its result regardless of the specialty.  In particular
`get_impact_factor("Ophthalmology", "Science")` is 47.7. -/
theorem override_first_hit_wins :
    (∀ (s n : String) (d v : ℚ),
      overrideFirst (lowerStr (stripStr n)) HIGH_IMPACT_JOURNALS = some v →
      get_impact_factor s n d = some v) ∧
    (∀ d : ℚ, get_impact_factor "Ophthalmology" "Science" d = some 47.7) := by
  have h1 : ∀ (s n : String) (d v : ℚ),
      overrideFirst (lowerStr (stripStr n)) HIGH_IMPACT_JOURNALS = some v →
      get_impact_factor s n d = some v := by
    intro s n d v hov
    have hne : n ≠ "" := by
      intro he
      rw [he] at hov
      rw [show overrideFirst (lowerStr (stripStr "")) HIGH_IMPACT_JOURNALS = none from by
        decide] at hov
      exact Option.noConfusion hov
    unfold get_impact_factor
    rw [if_neg hne, hov]
  exact ⟨h1, fun d => h1 "Ophthalmology" "Science" d 47.7 (by with_unfolding_all decide)⟩

/-- C3 (witness): the override theorem applied at a concrete hit. -/
theorem override_first_hit_example :
    get_impact_factor "History" "Nature" 1 = some 49.9 :=
  override_first_hit_wins.1 "History" "Nature" 1 49.9 (by with_unfolding_all decide)

/-- C3 (counterexample): "Nature Medicine" lower-cases to the name of an
override entry with factor 53.4, yet the resolver returns 49.9, because the
entry "Nature" comes earlier in table order and is a substring. -/
theorem nature_medicine_shadowed :
    get_impact_factor "Ophthalmology" "Nature Medicine" 1 = some 49.9 ∧
    ("Nature Medicine", (53.4 : ℚ)) ∈ HIGH_IMPACT_JOURNALS ∧
    lowerStr (stripStr "Nature Medicine") = lowerStr "Nature Medicine" ∧
    (49.9 : ℚ) ≠ 53.4 := by
  with_unfolding_all decide

/-- C1 (amended): a journal name that is verbatim a key of its specialty's
table resolves to that table value, provided the high-impact override scan
(which runs first and uses a substring test) does not hit the key. -/
theorem exact_table_hit_of_no_override :
    ∀ (s : String) (tbl : List (String × ℚ)) (k : String) (v d : ℚ),
      (s, tbl) ∈ JOURNAL_IMPACT_FACTORS → (k, v) ∈ tbl →
      overrideFirst (lowerStr (stripStr k)) HIGH_IMPACT_JOURNALS = none →
      get_impact_factor s k d = some v := by
  intro s tbl k v d hs hk hov
  have hclean := table_keys_clean (s, tbl) hs (k, v) hk
  have hnd := table_keys_nodup (s, tbl) hs
  have hdict : assoc s JOURNAL_IMPACT_FACTORS = some tbl :=
    assoc_of_mem_nodup hs specialties_nodup
  have hassoc : assoc k tbl = some v := assoc_of_mem_nodup hk hnd
  unfold get_impact_factor
  rw [if_neg hclean.1, hov, hdict]
  simp only [Option.getD_some]
  rw [hclean.2, hassoc]

/-- C1 (witness): the amended theorem applied at the key "Allergy" of the
"Allergy" table. -/
theorem exact_table_hit_example :
    get_impact_factor "Allergy" "Allergy" 1 = some 12.6 :=
  exact_table_hit_of_no_override "Allergy" allergyTable "Allergy" 12.6 1
    (by with_unfolding_all decide) (by with_unfolding_all decide)
    (by with_unfolding_all decide)

/-- C1 (counterexample): "Annual Review of Vision Science" is verbatim a key
of the "Ophthalmology" table with value 5.5, but the resolver returns 47.7:
the override entry "Science" is a substring of the lower-cased key and the
override scan runs before the exact lookup. -/
theorem override_shadows_exact_key :
    get_impact_factor "Ophthalmology" "Annual Review of Vision Science" 1 = some 47.7 ∧
    ("Ophthalmology", ophthalmologyTable) ∈ JOURNAL_IMPACT_FACTORS ∧
    ("Annual Review of Vision Science", (5.5 : ℚ)) ∈ ophthalmologyTable ∧
    (47.7 : ℚ) ≠ 5.5 := by
  with_unfolding_all decide

/-- C4 (amended): the fuzzy partial-match step can only return a value when
the shorter of the two compared strings occurs at least five times in the
longer one (the guard needs `shorter > 5` and `count / shorter > 0.7`); for
every journal name in which each table key occurs at most four times and
which occurs at most four times in each key, the step always falls through. -/
theorem fuzzy_step_needs_five_repeats :
    ∀ (jl : String) (tbl : List (String × ℚ)),
      (∀ e ∈ tbl, countStr jl (lowerStr e.1) ≤ 4 ∧ countStr (lowerStr e.1) jl ≤ 4) →
      fuzzyFirst jl tbl = some none := by
  intro jl tbl
  induction tbl with
  | nil => intro _; rfl
  | cons kv rest ih =>
    obtain ⟨k2, v2⟩ := kv
    intro h
    have hhead := h (k2, v2) (List.mem_cons_self _ _)
    have htail := fun e he => h e (List.mem_cons_of_mem _ he)
    rw [fuzzyFirst]
    split
    · split
      · rename_i hcond h5
        have hden : ((min jl.data.length (lowerStr k2).data.length : ℕ) : ℚ) ≠ 0 :=
          Nat.cast_ne_zero.mpr (by omega)
        rw [safeDiv, if_neg hden]
        have hA : ((max (countStr jl (lowerStr k2)) (countStr (lowerStr k2) jl) : ℕ) : ℚ) ≤ 4 := by
          have : max (countStr jl (lowerStr k2)) (countStr (lowerStr k2) jl) ≤ 4 :=
            max_le hhead.1 hhead.2
          exact_mod_cast this
        have hB : (6 : ℚ) ≤ ((min jl.data.length (lowerStr k2).data.length : ℕ) : ℚ) := by
          exact_mod_cast h5
        have hBpos : (0 : ℚ) < ((min jl.data.length (lowerStr k2).data.length : ℕ) : ℚ) := by
          linarith
        have hratio : ¬ ((0.7 : ℚ) <
            ((max (countStr jl (lowerStr k2)) (countStr (lowerStr k2) jl) : ℕ) : ℚ) /
            ((min jl.data.length (lowerStr k2).data.length : ℕ) : ℚ)) := by
          rw [not_lt, div_le_iff₀ hBpos]
          nlinarith
        show (if (0.7 : ℚ) <
            ((max (countStr jl (lowerStr k2)) (countStr (lowerStr k2) jl) : ℕ) : ℚ) /
            ((min jl.data.length (lowerStr k2).data.length : ℕ) : ℚ)
          then some (some v2) else fuzzyFirst jl rest) = some none
        rw [if_neg hratio]
        exact ih htail
      · exact ih htail
    · exact ih htail

/-- C4 (witness): the amended theorem applied to a name without repeated
keys, against the full "Ophthalmology" table. -/
theorem fuzzy_step_skip_example :
    fuzzyFirst "zebrafish gazette" ophthalmologyTable = some none :=
  fuzzy_step_needs_five_repeats "zebrafish gazette" ophthalmologyTable
    (by with_unfolding_all decide)

/-- C4 (counterexample): on the name "ophthalmology" repeated ten times the
override, exact and case-insensitive steps all fail, and the fuzzy step does
return a value (9.2, from the key "Ophthalmology": 10 occurrences / 13 > 0.7),
so it is reachable and `get_impact_factor` returns its result. -/
theorem fuzzy_step_fires_on_repeated_name :
    overrideFirst (lowerStr (stripStr bigName)) HIGH_IMPACT_JOURNALS = none ∧
    assoc (stripStr bigName) ophthalmologyTable = none ∧
    ciFirst (lowerStr (stripStr bigName)) ophthalmologyTable = none ∧
    fuzzyFirst (lowerStr (stripStr bigName)) ophthalmologyTable = some (some 9.2) ∧
    assoc "Ophthalmology" JOURNAL_IMPACT_FACTORS = some ophthalmologyTable ∧
    get_impact_factor "Ophthalmology" bigName 1 = some 9.2 := by
  with_unfolding_all decide

/-- C5: when the first four steps all fail and some generic pattern matches
the cleaned lower-cased name, the resolver returns the factor of the first
matching pattern in table order, multiplied by 1.2 exactly when the
lower-cased specialty occurs in the lower-cased name. -/
theorem generic_pattern_fallback_result :
    ∀ (s n : String) (d f : ℚ),
      n ≠ "" →
      overrideFirst (lowerStr (stripStr n)) HIGH_IMPACT_JOURNALS = none →
      assoc (stripStr n) ((assoc s JOURNAL_IMPACT_FACTORS).getD []) = none →
      ciFirst (lowerStr (stripStr n)) ((assoc s JOURNAL_IMPACT_FACTORS).getD []) = none →
      fuzzyFirst (lowerStr (stripStr n)) ((assoc s JOURNAL_IMPACT_FACTORS).getD []) = some none →
      patternFirst (lowerStr (stripStr n)) GENERIC_PATTERNS = some f →
      get_impact_factor s n d =
        some (if substrB (lowerStr s) (lowerStr (stripStr n)) = true then f * 1.2 else f) := by
  intro s n d f hne hov hex hci hfz hpat
  unfold get_impact_factor
  rw [if_neg hne, hov, hex, hci, hfz, hpat]

/-- C5 (witness): the pattern-fallback theorem applied at a concrete input
reaching the patterns; "journal of cardiology" first matches the pattern for
"journal of word" (factor 6.0) and contains the specialty, so 6.0 · 1.2. -/
theorem generic_pattern_fallback_example :
    get_impact_factor "Cardiology" "Journal of Cardiology" 1 = some 7.2 := by
  have h := generic_pattern_fallback_result "Cardiology" "Journal of Cardiology" 1 6
    (by decide) (by with_unfolding_all decide) (by with_unfolding_all decide)
    (by with_unfolding_all decide) (by with_unfolding_all decide)
    (by with_unfolding_all decide)
  rw [h, if_pos (by decide)]
  with_unfolding_all decide

/-- Case analysis on the three multiplier conditions: the pre-clamp heuristic
score is always one of the eight products of subsets of {1.5, 1.3, 1.2}. -/
theorem estimate_base_mem : ∀ (n s : String),
    estimate_base n s ∈ ([1, 1.2, 1.3, 1.5, 1.56, 1.8, 1.95, 2.34] : List ℚ) := by
  intro n s
  unfold estimate_base
  by_cases h1 : (prestigious_indicators.any fun i => substrB i n) = true <;>
    by_cases h2 : (higher_impact_types.any fun t => substrB t n) = true <;>
      by_cases h3 : substrB s n = true <;>
        simp [h1, h2, h3, List.mem_cons] <;> norm_num

/-- C6: the heuristic estimate is always at most 15.0 and is an integer number
of tenths; and a name containing some prestige indicator, some higher-impact
type marker, and the specialty yields 1.0 · 1.5 · 1.3 · 1.2 = 2.34, returned
as 2.3 after rounding. -/
theorem estimate_bounded_one_decimal :
    (∀ (n s : String), estimate_impact_from_name n s ≤ 15 ∧
      ∃ k : ℤ, estimate_impact_from_name n s = (k : ℚ) / 10) ∧
    (∀ (n s : String),
      (∃ p ∈ prestigious_indicators, substrB p n = true) →
      (∃ t ∈ higher_impact_types, substrB t n = true) →
      substrB s n = true →
      estimate_impact_from_name n s = 2.3) := by
  constructor
  · intro n s
    constructor
    · have hm := estimate_base_mem n s
      unfold estimate_impact_from_name
      simp only [List.mem_cons, List.not_mem_nil, or_false] at hm
      rcases hm with h | h | h | h | h | h | h | h <;> rw [h] <;> norm_num [round1]
    · refine ⟨⌊10 * (if 15.0 < estimate_base n s then (15.0 : ℚ)
        else estimate_base n s) + 1 / 2⌋, ?_⟩
      rw [estimate_impact_from_name, round1]
  · intro n s h1 h2 h3
    have hb1 : (prestigious_indicators.any fun i => substrB i n) = true :=
      List.any_eq_true.mpr h1
    have hb2 : (higher_impact_types.any fun t => substrB t n) = true :=
      List.any_eq_true.mpr h2
    unfold estimate_impact_from_name estimate_base
    simp only [hb1, hb2, h3, if_true, if_pos]
    norm_num [round1]

/-- C6 (witness): the heuristic theorem applied at a name containing "nature",
"review" and the specialty "allergy". -/
theorem estimate_nature_review_example :
    estimate_impact_from_name "nature review of allergy" "allergy" = 2.3 :=
  estimate_bounded_one_decimal.2 "nature review of allergy" "allergy"
    ⟨"nature", by decide, by decide⟩ ⟨"review", by decide, by decide⟩ (by decide)

/-- C10: the pre-clamp heuristic score is at most 1.5 · 1.3 · 1.2 = 2.34, so
the 15.0 clamp never alters it (it is dead code) and the returned estimate is
always at most 2.4. -/
theorem estimate_clamp_dead : ∀ (n s : String),
    estimate_base n s ≤ 2.34 ∧
    (if 15.0 < estimate_base n s then (15.0 : ℚ) else estimate_base n s) = estimate_base n s ∧
    estimate_impact_from_name n s ≤ 2.4 := by
  intro n s
  have hm := estimate_base_mem n s
  simp only [List.mem_cons, List.not_mem_nil, or_false] at hm
  have hle : estimate_base n s ≤ 2.34 := by
    rcases hm with h | h | h | h | h | h | h | h <;> rw [h] <;> norm_num
  refine ⟨hle, ?_, ?_⟩
  · rw [if_neg]
    intro hgt
    have : (15.0 : ℚ) < 2.34 := lt_of_lt_of_le hgt hle
    norm_num at this
  · unfold estimate_impact_from_name
    rcases hm with h | h | h | h | h | h | h | h <;> rw [h] <;> norm_num [round1]

/-- Whichever path is taken, the resolver produces a value: the only fallible
operation is the fuzzy-ratio division, and its divisor is guarded. -/
theorem get_impact_factor_isSome :
    ∀ (s n : String) (d : ℚ), (get_impact_factor s n d).isSome = true := by
  intro s n d
  unfold get_impact_factor
  split
  · rfl
  · split
    · rfl
    · split
      · rfl
      · split
        · rfl
        · split
          · rename_i heq
            exact absurd heq (fuzzyFirst_ne_none _ _)
          · rfl
          · split
            · rfl
            · split
              · rfl
              · rfl

/-- C7: the resolver is total and never raises — every pair of strings and
every default yield a value; the specialty "UnknownSpecialty" has no table,
and the scenario call falls through to the name heuristic. -/
theorem resolver_total_unknown_specialty :
    (∀ (s n : String) (d : ℚ), ∃ r : ℚ, get_impact_factor s n d = some r) ∧
    assoc "UnknownSpecialty" JOURNAL_IMPACT_FACTORS = none ∧
    (∀ d : ℚ, get_impact_factor "UnknownSpecialty" "Some Journal Name" d =
      some (estimate_impact_from_name "some journal name" "unknownspecialty")) := by
  refine ⟨?_, by decide, ?_⟩
  · intro s n d
    exact Option.isSome_iff_exists.mp (get_impact_factor_isSome s n d)
  · intro d
    have hred : get_impact_factor "UnknownSpecialty" "Some Journal Name" d =
        if 0 < estimate_impact_from_name "some journal name" "unknownspecialty" then
          some (estimate_impact_from_name "some journal name" "unknownspecialty")
        else some d := by
      with_unfolding_all rfl
    rw [hred, if_pos (by with_unfolding_all decide)]

/-- C9: with a positive default, every result of the resolver is strictly
positive — all table, override and pattern factors are positive, the 1.2
bonus preserves positivity, and the heuristic branch is taken only when its
estimate is positive. -/
theorem resolver_positive :
    ∀ (s n : String) (d : ℚ), 0 < d → ∀ r : ℚ, get_impact_factor s n d = some r → 0 < r := by
  intro s n d hd r h
  have hdictpos : ∀ e ∈ (assoc s JOURNAL_IMPACT_FACTORS).getD [], 0 < e.2 := by
    cases hs : assoc s JOURNAL_IMPACT_FACTORS with
    | none => simp
    | some tbl =>
      simp only [Option.getD_some]
      exact table_values_pos (s, tbl) (assoc_mem hs)
  unfold get_impact_factor at h
  split at h
  · injection h with h2
    rw [← h2]
    exact hd
  · split at h
    · rename_i v heq
      injection h with h2
      obtain ⟨k, hk⟩ := overrideFirst_mem heq
      rw [← h2]
      exact high_impact_values_pos (k, v) hk
    · split at h
      · rename_i v heq
        injection h with h2
        rw [← h2]
        exact hdictpos _ (assoc_mem heq)
      · split at h
        · rename_i v heq
          injection h with h2
          obtain ⟨k, hk⟩ := ciFirst_mem heq
          rw [← h2]
          exact hdictpos _ hk
        · split at h
          · exact Option.noConfusion h
          · rename_i v heq
            injection h with h2
            obtain ⟨k, hk⟩ := fuzzyFirst_mem heq
            rw [← h2]
            exact hdictpos _ hk
          · split at h
            · rename_i f heq
              injection h with h2
              obtain ⟨p, hp⟩ := patternFirst_mem heq
              have hf : 0 < f := pattern_values_pos (p, f) hp
              rw [← h2]
              split
              · exact mul_pos hf (by norm_num)
              · exact hf
            · split at h
              · rename_i hpos
                injection h with h2
                rw [← h2]
                exact hpos
              · injection h with h2
                rw [← h2]
                exact hd

/-- C9 (witness): the positivity theorem applied at a concrete call. -/
theorem resolver_positive_example :
    get_impact_factor "Allergy" "Journal of Asthma" 1 = some 1.7 ∧ (0 : ℚ) < 1.7 :=
  ⟨by with_unfolding_all decide,
   resolver_positive "Allergy" "Journal of Asthma" 1 (by norm_num) 1.7
     (by with_unfolding_all decide)⟩

end ImpactFactors
